import Mathlib

set_option maxRecDepth 8192

/-!
Verification development for the Google Drive patch-folder synchronizer
(`database/gdrive_db.py`).  The Python functions are shallowly embedded as
executable Lean definitions:

* JSON objects / Python dicts become insertion-ordered association lists
  (`List (String × _)`) with Python dict semantics: lookup finds the first
  (hence, for unique keys, the only) entry, assignment replaces an existing
  entry in place and appends a fresh one at the end, `del`/`pop` remove the
  entry.
* Remote (Google Drive) reads are an environment of pure functions: the
  children listing of a folder id, the per-folder metadata lookup used by the
  upward ancestry walk, the change feed and the start-page token.
* Exceptions (`KeyError`, `HttpError`, JSON errors) are `Except String`.
* The unbounded recursion of `recursive_list_files_with_path` over remote
  folder ids is made total with an explicit fuel parameter that strictly
  decreases at every step; every terminating run of the Python code is
  reproduced by a sufficiently large fuel value.
-/

/-! ## Python dict semantics over association lists -/

def dget {α : Type} : List (String × α) → String → Option α
  | [], _ => none
  | (k, v) :: rest, key => if k = key then some v else dget rest key

def dmem {α : Type} (d : List (String × α)) (key : String) : Bool :=
  (dget d key).isSome

/-- Python `d[key] = v`: replace in place when the key exists, append otherwise. -/
def dset {α : Type} : List (String × α) → String → α → List (String × α)
  | [], key, v => [(key, v)]
  | (k, w) :: rest, key, v =>
    if k = key then (key, v) :: rest else (k, w) :: dset rest key v

/-- Python `del d[key]` / `d.pop(key)` (the entry removal part). -/
def dremove {α : Type} : List (String × α) → String → List (String × α)
  | [], _ => []
  | (k, w) :: rest, key => if k = key then rest else (k, w) :: dremove rest key

def dkeys {α : Type} (d : List (String × α)) : List String := d.map Prod.fst

/-- Python `d[key]` with `KeyError` on a missing key. -/
def getE {α : Type} (d : List (String × α)) (key : String) : Except String α :=
  match dget d key with
  | some v => Except.ok v
  | none => Except.error "KeyError"

/-- Python `d.update(e)`: assign every entry of `e` into `d`, in order. -/
def dictUpdate {α : Type} (d : List (String × α)) (e : List (String × α)) :
    List (String × α) :=
  e.foldl (fun acc kv => dset acc kv.1 kv.2) d

/-! ## Data model (snapshot JSON shape of `patches_database.json`)

A `Game` dict in the snapshot holds the structural keys `id` and `files` plus
arbitrary operator-curated extra keys; the record below separates the extras
into their own association list (values kept opaque as strings). -/

structure FileRec where
  name : String
  id : String
  size : String
  type : String
  path : String
deriving DecidableEq

structure Game where
  id : String
  files : List FileRec
  extras : List (String × String)
deriving DecidableEq

structure Developer where
  id : String
  games : List (String × Game)
deriving DecidableEq

/-- `metadata`; an absent `recent_changes` key behaves exactly like `[]`
(`metadata.setdefault('recent_changes', [])`), so it is modelled as a list. -/
structure Metadata where
  version : Option String
  recent_changes : List String
deriving DecidableEq

structure Catalog where
  developers : List (String × Developer)
  metadata : Metadata
deriving DecidableEq

/-- One item of a `files().list` page: id, name, mimeType (collapsed to the
folder flag, which is all the script inspects), size. -/
structure Node where
  id : String
  name : String
  isFolder : Bool
  size : Option String
deriving DecidableEq

/-- Result of `files().get(fileId, fields='name,parents')`. -/
structure FolderInfo where
  name : String
  parents : List String
deriving DecidableEq

/-- A parsed change-feed entry `changes(fileId,removed,file(...))`.  Fields read
with `.get` carry their Python default; `file['id']` and `file['mimeType']` are
accessed with `[]`, and a missing `mimeType` is representable so that the
resulting `KeyError` can be modelled. -/
structure ChangeFile where
  id : String
  name : Option String
  mimeType : Option String
  parents : List String
  trashed : Bool
  size : Option String
deriving DecidableEq

structure Change where
  fileId : Option String
  removed : Bool
  file : Option ChangeFile
deriving DecidableEq

/-- The remote store as seen through the script's read requests.  `info`
returning `none` covers both a failed `files().get` (`HttpError`, which
`find_game_and_path` catches and turns into `None`) and the error branch.
`getChanges` and `startPageToken` may fail (`HttpError` after retries). -/
structure DriveEnv where
  children : String → List Node
  info : String → Option FolderInfo
  getChanges : Except Unit (List Change × String)
  startPageToken : Except Unit String
  now : String

/-! ## Module constants -/

def MAX_RETRIES : Nat := 3
def RETRY_DELAY_BASE : Nat := 1
def ROOT_FOLDER_ID : String := "1a7jIAJoELzB3HpXNcuF0tGmDq1jqHs9-"
def FOLDER_MIME : String := "application/vnd.google-apps.folder"

/-- The tracked extension list `['.zip', '.7z', '.rar', '.exe', '.txt', '.pdf', '.docx']`. -/
def trackedExts : List String := [".zip", ".7z", ".rar", ".exe", ".txt", ".pdf", ".docx"]

/-! ## `execute_with_retries`

The retry loop, abstracted over the outcome of each attempt
(`attempts i = .error status` models `request.execute()` raising `HttpError`
with that HTTP status on attempt `i`).  The returned triple is the final
outcome, the number of attempts actually executed, and the list of back-off
delays slept (in seconds), in order.  The fuel-exhausted base case models the
unreachable generic `raise Exception` after the loop (status 0). -/

def ewrGo {α : Type} (attempts : Nat → Except Nat α) :
    Nat → Nat → List Nat → Except Nat α × Nat × List Nat
  | 0, attempt, delays => (Except.error 0, attempt, delays)
  | fuel + 1, attempt, delays =>
    match attempts attempt with
    | Except.ok a => (Except.ok a, attempt + 1, delays)
    | Except.error status =>
      if (status = 429 ∨ status = 500) ∧ attempt < MAX_RETRIES - 1 then
        ewrGo attempts fuel (attempt + 1) (delays ++ [RETRY_DELAY_BASE * 2 ^ attempt])
      else (Except.error status, attempt + 1, delays)

def execute_with_retries {α : Type} (attempts : Nat → Except Nat α) :
    Except Nat α × Nat × List Nat :=
  ewrGo attempts MAX_RETRIES 0 []

/-! ## Size display (lines 144-147 and 426-429)

`f"{size/1024/1024:.1f} MB"` / `f"{size/1024:.1f} KB"`.  For every size below
`2^53` the Python float `size / 2^k` is exact (division by a power of two only
shifts the exponent), and `:.1f` then renders the exact value rounded to one
decimal digit with ties to even; `fmtFixed1` implements exactly that rounding
on naturals. -/

def pyIsDigit (s : String) : Bool :=
  !s.data.isEmpty && s.data.all (·.isDigit)

/-- `int(s)` for a digit string. -/
def pyIntOfDigits (s : String) : Nat :=
  s.data.foldl (fun acc c => acc * 10 + (c.toNat - 48)) 0

def roundHalfToEven (num den : Nat) : Nat :=
  let q := num / den
  let r := num % den
  if 2 * r < den then q
  else if 2 * r > den then q + 1
  else if q % 2 = 0 then q else q + 1

/-- `f"{n/den:.1f}"` for the exact rational `n / den`. -/
def fmtFixed1 (n den : Nat) : String :=
  let k := roundHalfToEven (10 * n) den
  toString (k / 10) ++ "." ++ toString (k % 10)

/-- Lines 144-147 (full scan): `size_str = item.get('size', 'Unknown')` and the
digit-string formatting branch. -/
def sizeDisplayScan (size : Option String) : String :=
  let size_str := size.getD "Unknown"
  if pyIsDigit size_str then
    let size := pyIntOfDigits size_str
    if size > 1024 * 1024 then fmtFixed1 size (1024 * 1024) ++ " MB"
    else fmtFixed1 size 1024 ++ " KB"
  else size_str

/-- Lines 426-429 (incremental file handling): `size_str = file.get('size', 'Unknown')`
and the identical formatting branch. -/
def sizeDisplayIncr (size : Option String) : String :=
  let size_str := size.getD "Unknown"
  if pyIsDigit size_str then
    let size := pyIntOfDigits size_str
    if size > 1024 * 1024 then fmtFixed1 size (1024 * 1024) ++ " MB"
    else fmtFixed1 size 1024 ++ " KB"
  else size_str

/-- The size-display rule as claim C10 words it: missing size gives the literal
`Unknown`, a non-digit string is kept raw, a digit string `s` with `n = int(s)`
is shown as `n/1048576` to one decimal followed by `' MB'` when `n > 1048576`,
else as `n/1024` to one decimal followed by `' KB'`. -/
def sizeDisplayClaim (size : Option String) : String :=
  match size with
  | none => "Unknown"
  | some s =>
    if pyIsDigit s then
      let n := pyIntOfDigits s
      if n > 1048576 then fmtFixed1 n 1048576 ++ " MB"
      else fmtFixed1 n 1024 ++ " KB"
    else s

/-! ## `Path(name).suffix.lower()` -/

/-- The last `/`-separated component (`Path(name).name`). -/
def lastComponent : List Char → List Char :=
  fun cs => cs.foldl (fun acc c => if c = '/' then [] else acc ++ [c]) []

/-- Split at the last `.`: `some (before, after)` when a dot exists. -/
def splitLastDot : List Char → Option (List Char × List Char)
  | [] => none
  | c :: rest =>
    match splitLastDot rest with
    | some (b, a) => some (c :: b, a)
    | none => if c = '.' then some ([], rest) else none

/-- `PurePath.suffix`: nonempty exactly when the last dot of the final
component sits strictly inside it (`0 < i < len(name) - 1` in CPython). -/
def pySuffixCore (base : List Char) : List Char :=
  match splitLastDot base with
  | some (before, after) =>
    if before ≠ [] ∧ after ≠ [] then '.' :: after else []
  | none => []

def pySuffix (name : String) : String :=
  String.mk ((pySuffixCore (lastComponent name.toList)).map Char.toLower)

/-! ## `recursive_list_files_with_path` (lines 131-156)

The Python function lists the children of `folder_id` and loops over them,
recursing into every subfolder whose name is not in `ignore_folder_names`.
`rlfwpItems` is that loop, over an explicit children listing; fuel decreases on
every recursive call. -/

def rlfwpItems (children : String → List Node) (ignore_folder_names : List String) :
    Nat → List Node → String → List FileRec
  | _, [], _ => []
  | 0, _ :: _, _ => []
  | fuel + 1, item :: rest, current_path =>
    (if item.isFolder then
      if ignore_folder_names.contains item.name then []
      else
        let sub_path :=
          if current_path ≠ "" then current_path ++ item.name ++ "/"
          else item.name ++ "/"
        rlfwpItems children ignore_folder_names fuel (children item.id) sub_path
    else
      let ext := pySuffix item.name
      if trackedExts.contains ext then
        let size_str := sizeDisplayScan item.size
        let file_path :=
          if current_path ≠ "" then current_path ++ item.name else item.name
        [{ name := item.name, id := item.id, size := size_str, type := ext,
           path := file_path }]
      else []) ++
    rlfwpItems children ignore_folder_names fuel rest current_path

def recursive_list_files_with_path (children : String → List Node)
    (ignore_folder_names : List String) (fuel : Nat) (folder_id : String)
    (current_path : String) : List FileRec :=
  rlfwpItems children ignore_folder_names fuel (children folder_id) current_path

/-! ## `find_game_and_path` (lines 157-183)

Upward walk from a file's parent folder towards a known game id, collecting
folder names; `fuel` is `max_steps - steps` (the walk starts with
`max_steps = 20`).  `info current = none` models the caught `HttpError`. -/

def fgpGo (info : String → Option FolderInfo) (games : List String) :
    Nat → String → List String → Option (List String × String)
  | 0, current, path_parts =>
    if games.contains current then some (path_parts.reverse, current) else none
  | fuel + 1, current, path_parts =>
    if current = "" then
      if games.contains current then some (path_parts.reverse, current) else none
    else if games.contains current then some (path_parts.reverse, current)
    else
      match info current with
      | none => none
      | some folder_info =>
        if folder_info.name = "Old" then none
        else
          match folder_info.parents with
          | [] => none
          | p :: _ => fgpGo info games fuel p (folder_info.name :: path_parts)

def find_game_and_path (info : String → Option FolderInfo) (games : List String)
    (start_parent_id : String) : Option (List String × String) :=
  fgpGo info games 20 start_parent_id []

/-- Mirror of the walk of `fgpGo` that records whether a folder named `Old` is
encountered before the walk reaches a known game id, runs out of parents, hits
a lookup error, or exhausts its step budget. -/
def oldOnWalk (info : String → Option FolderInfo) (games : List String) :
    Nat → String → Bool
  | 0, _ => false
  | fuel + 1, current =>
    if current = "" then false
    else if games.contains current then false
    else
      match info current with
      | none => false
      | some folder_info =>
        folder_info.name = "Old" ||
          (match folder_info.parents with
           | [] => false
           | p :: _ => oldOnWalk info games fuel p)

/-- `'/'.join(parts)`. -/
def joinSlash : List String → String
  | [] => ""
  | [s] => s
  | s :: rest => s ++ "/" ++ joinSlash rest

/-! ## Reconciler state

`index_game_folders` keeps the developers dict plus the three id maps of
`build_id_maps`, the `new_changes` log, and `change_count`.  The maps are state
(not recomputed on demand) because the code rebuilds them only at specific
points: after a file-entry cleanup without a re-add, `file_id_to_game` is
deliberately left stale, exactly as in the source. -/

def build_id_maps (devs : List (String × Developer)) :
    List (String × String) × List (String × String × String) ×
      List (String × String × String) :=
  devs.foldl
    (fun maps dv =>
      let maps₁ := (dset maps.1 dv.2.id dv.1, maps.2.1, maps.2.2)
      dv.2.games.foldl
        (fun maps₂ gv =>
          let maps₃ := (maps₂.1, dset maps₂.2.1 gv.2.id (dv.1, gv.1), maps₂.2.2)
          gv.2.files.foldl
            (fun maps₄ f => (maps₄.1, maps₄.2.1, dset maps₄.2.2 f.id (dv.1, gv.1)))
            maps₃)
        maps₁)
    ([], [], [])

structure SyncState where
  devs : List (String × Developer)
  dev_id_to_name : List (String × String)
  game_id_to_path : List (String × String × String)
  file_id_to_game : List (String × String × String)
  new_changes : List String
  change_count : Nat
deriving DecidableEq

def initState (devs : List (String × Developer)) : SyncState :=
  let maps := build_id_maps devs
  { devs := devs, dev_id_to_name := maps.1, game_id_to_path := maps.2.1,
    file_id_to_game := maps.2.2, new_changes := [], change_count := 0 }

def rebuildMaps (st : SyncState) : SyncState :=
  let maps := build_id_maps st.devs
  { st with dev_id_to_name := maps.1, game_id_to_path := maps.2.1,
            file_id_to_game := maps.2.2 }

/-! ## `handle_deletion` (lines 284-310)

Removes a developer / game / file entry by id; returns whether something was
matched.  `id? = none` models a change without `fileId`: `None in dict` is
`False` for every branch, so nothing matches.  Dict accesses that the source
performs with `[]`/`del` are modelled with `getE`; in reachable states the id
maps guarantee they succeed, and every possible failure here happens before the
corresponding mutation. -/

def handle_deletion (id? : Option String) (st : SyncState) :
    Except String (Bool × SyncState) := do
  match id? with
  | none => return (false, st)
  | some id_ =>
    if dmem st.dev_id_to_name id_ then do
      let name ← getE st.dev_id_to_name id_
      let _ ← getE st.devs name
      return (true,
        { st with
            devs := dremove st.devs name
            new_changes := st.new_changes ++ ["REMOVED DEVELOPER: " ++ name] })
    else if dmem st.game_id_to_path id_ then do
      let path ← getE st.game_id_to_path id_
      let dev := path.1
      let name := path.2
      let d ← getE st.devs dev
      let _ ← getE d.games name
      return (true,
        { st with
            devs := dset st.devs dev ({ d with games := dremove d.games name })
            new_changes := st.new_changes ++ ["REMOVED GAME: " ++ dev ++ "/" ++ name] })
    else if dmem st.file_id_to_game id_ then do
      let path ← getE st.file_id_to_game id_
      let dev := path.1
      let name := path.2
      let d ← getE st.devs dev
      let g ← getE d.games name
      let removed_file_names := (g.files.filter (fun f => f.id == id_)).map (·.name)
      let files₂ := g.files.filter (fun f => f.id != id_)
      return (true,
        { st with
            devs := dset st.devs dev ({ d with games := dset d.games name ({ g with files := files₂ }) })
            new_changes := st.new_changes ++
              removed_file_names.map
                (fun rn => "REMOVED FILE: " ++ dev ++ "/" ++ name ++ "/" ++ rn) })
    else return (false, st)

/-! ## One iteration of the change loop (lines 323-450) -/

def applyChange (env : DriveEnv) (fuel : Nat) (root_folder_id : String)
    (st : SyncState) (change : Change) : Except String SyncState := do
  let file_id := change.fileId
  let is_removed := change.removed
  let file? := change.file
  -- Permanent deletion (removed=True) or trashed (file.trashed=True)
  if is_removed || (match file? with | some f => f.trashed | none => false) then
    let r ← handle_deletion file_id st
    if r.1 then
      -- Rebuild maps after a structural change
      return ({ rebuildMaps r.2 with change_count := r.2.change_count + 1 })
    else
      return r.2
  else
  match file? with
  | none => return st
  | some file => do
    let id_ := file.id
    let name := file.name.getD ""
    let mime ← (match file.mimeType with
                | some m => Except.ok m
                | none => Except.error "KeyError")
    let parents := file.parents
    let parent : Option String := parents.head?
    if mime = FOLDER_MIME then do
      -- Folder Logic
      let st₂ ← (do
        if dmem st.dev_id_to_name id_ then do
          let old_name ← getE st.dev_id_to_name id_
          if parent ≠ some root_folder_id then do
            -- Moved out
            let r ← handle_deletion (some id_) st
            pure r.2
          else if old_name ≠ name then do
            -- Renamed: developers[name] = developers.pop(old_name); ['id'] = id_
            let dev ← getE st.devs old_name
            pure ({ st with
                     devs := dset (dremove st.devs old_name) name ({ dev with id := id_ })
                     new_changes := st.new_changes ++
                       ["RENAMED DEVELOPER: " ++ old_name ++ " -> " ++ name]
                     change_count := st.change_count + 1 })
          else pure st
        else if dmem st.game_id_to_path id_ then do
          -- Game folder move/rename logic
          let oldPath ← getE st.game_id_to_path id_
          let old_dev := oldPath.1
          let old_name := oldPath.2
          match parent with
          | none => do
            let r ← handle_deletion (some id_) st
            pure r.2
          | some par =>
            if ¬ dmem st.dev_id_to_name par then do
              let r ← handle_deletion (some id_) st
              pure r.2
            else do
              let new_dev ← getE st.dev_id_to_name par
              if old_dev ≠ new_dev ∨ old_name ≠ name then do
                let devOld ← getE st.devs old_dev
                let game_data ← getE devOld.games old_name
                let devs₁ := dset st.devs old_dev
                  ({ devOld with games := dremove devOld.games old_name })
                let devNew ← getE devs₁ new_dev
                let devs₂ := dset devs₁ new_dev
                  ({ devNew with games := dset devNew.games name ({ game_data with id := id_ }) })
                pure ({ st with
                         devs := devs₂
                         new_changes := st.new_changes ++
                           ["MOVED/RENAMED GAME: " ++ old_dev ++ "/" ++ old_name ++
                            " -> " ++ new_dev ++ "/" ++ name]
                         change_count := st.change_count + 1 })
              else pure st
        else
          -- New folder
          if parent = some root_folder_id then do
            let devs₁ := dset st.devs name ({ id := id_, games := [] })
            let st₁ := { st with
                           devs := devs₁
                           new_changes := st.new_changes ++ ["ADDED DEVELOPER: " ++ name]
                           change_count := st.change_count + 1 }
            -- Force-scan contents of NEW DEVELOPER (v1.7 block)
            let game_folders := (env.children id_).filter (·.isFolder)
            let st₂ := game_folders.foldl
              (fun acc gf =>
                let game_files :=
                  recursive_list_files_with_path env.children ["Old"] fuel gf.id ""
                let gameRec : Game := { id := gf.id, files := game_files, extras := [] }
                let devsNext :=
                  match dget acc.devs name with
                  | some d => dset acc.devs name ({ d with games := dset d.games gf.name gameRec })
                  | none => acc.devs
                { acc with
                    devs := devsNext
                    new_changes := acc.new_changes ++
                      ["ADDED GAME (new dev scan): " ++ name ++ "/" ++ gf.name]
                    change_count := acc.change_count + 1 })
              st₁
            -- Rebuild after bulk add
            pure (rebuildMaps st₂)
          else
            match parent with
            | some par =>
              if dmem st.dev_id_to_name par then do
                let dev_name ← getE st.dev_id_to_name par
                let game_files :=
                  recursive_list_files_with_path env.children ["Old"] fuel id_ ""
                let d ← getE st.devs dev_name
                let gameRec : Game := { id := id_, files := game_files, extras := [] }
                let devsNext := dset st.devs dev_name ({ d with games := dset d.games name gameRec })
                let st₁ := { st with
                               devs := devsNext
                               new_changes := st.new_changes ++
                                 ["ADDED GAME: " ++ dev_name ++ "/" ++ name]
                               change_count := st.change_count + 1 }
                -- Rebuild maps after single game add
                pure (rebuildMaps st₁)
              else pure st
            | none => pure st)
      -- Rebuild maps after structural change (line 406)
      return rebuildMaps st₂
    else do
      -- File Logic
      -- 1. Clean up old entry if it existed (handles rename, move, update);
      --    note: the id maps are NOT rebuilt here
      let st₁ ← (if dmem st.file_id_to_game id_ then do
          let oldPath ← getE st.file_id_to_game id_
          let old_dev := oldPath.1
          let old_game := oldPath.2
          let d ← getE st.devs old_dev
          let g ← getE d.games old_game
          let gameRec := { g with files := g.files.filter (fun f => f.id != id_) }
          let devsNext := dset st.devs old_dev ({ d with games := dset d.games old_game gameRec })
          pure ({ st with
                   devs := devsNext
                   change_count := st.change_count + 1 })
        else pure st)
      match parents with
      | [] => return st₁
      | parent₀ :: _ =>
        -- 2. Add to new location
        match find_game_and_path env.info (dkeys st₁.game_id_to_path) parent₀ with
        | some res =>
          let path_parts := res.1
          let game_parent_id := res.2
          let ext := pySuffix name
          if ¬ trackedExts.contains ext then return st₁
          else do
            let size_str := sizeDisplayIncr file.size
            let rel_folder_path := joinSlash path_parts
            let file_path :=
              if path_parts ≠ [] then rel_folder_path ++ "/" ++ name else name
            let new_file : FileRec :=
              { name := name, id := id_, size := size_str, type := ext, path := file_path }
            let gpath ← getE st₁.game_id_to_path game_parent_id
            let dev_name := gpath.1
            let game_name := gpath.2
            let d ← getE st₁.devs dev_name
            let g ← getE d.games game_name
            let gameRec := { g with files := g.files ++ [new_file] }
            let devsNext := dset st₁.devs dev_name ({ d with games := dset d.games game_name gameRec })
            return rebuildMaps
              { st₁ with
                  devs := devsNext
                  new_changes := st₁.new_changes ++
                    ["UPDATED FILE: " ++ game_name ++ "/" ++ name]
                  change_count := st₁.change_count + 1 }
        | none =>
          -- File moved out of scope; deletion already handled by cleanup above
          return st₁

/-- The `for change in changes` loop.  On an unhandled exception the loop stops;
the returned state is the state reached so far (every modelled exception is
raised before the failing iteration's first mutation). -/
def runChanges (env : DriveEnv) (fuel : Nat) (root_folder_id : String) :
    SyncState → List Change → Option String × SyncState
  | st, [] => (none, st)
  | st, c :: rest =>
    match applyChange env fuel root_folder_id st c with
    | Except.ok st₂ => runChanges env fuel root_folder_id st₂ rest
    | Except.error e => (some e, st)

/-! ## Full scan (lines 457-497) and extras merge (lines 500-517) -/

def scanGameOf (env : DriveEnv) (fuel : Nat) (game_folder : Node) : Game :=
  { id := game_folder.id,
    files := recursive_list_files_with_path env.children ["Old"] fuel game_folder.id "",
    extras := [] }

def scanGamesOf (env : DriveEnv) (fuel : Nat) (dev_folder : Node) :
    List (String × Game) :=
  ((env.children dev_folder.id).filter (·.isFolder)).foldl
    (fun gs game_folder => dset gs game_folder.name (scanGameOf env fuel game_folder)) []

def scanDevOf (env : DriveEnv) (fuel : Nat) (dev_folder : Node) : Developer :=
  { id := dev_folder.id, games := scanGamesOf env fuel dev_folder }

def fullScanDevs (env : DriveEnv) (fuel : Nat) (root_folder_id : String) :
    List (String × Developer) :=
  ((env.children root_folder_id).filter (·.isFolder)).foldl
    (fun devs dev_folder => dset devs dev_folder.name (scanDevOf env fuel dev_folder)) []

/-- Lines 501-508: build Game remoteId → non-structural-fields map from the
prior snapshot (`if gid:` skips a falsy — empty — id; later duplicates win). -/
def game_id_to_extra (devs : List (String × Developer)) :
    List (String × List (String × String)) :=
  devs.foldl
    (fun m dv =>
      dv.2.games.foldl
        (fun m₂ gv => if gv.2.id ≠ "" then dset m₂ gv.2.id gv.2.extras else m₂)
        m)
    []

/-- Lines 511-517: `game.update(game_id_to_extra[gid])` onto one fresh game
(`if gid in game_id_to_extra: game.update(...)`). -/
def applyExtrasGame (m : List (String × List (String × String))) (g : Game) : Game :=
  match dget m g.id with
  | some extra => { g with extras := dictUpdate g.extras extra }
  | none => g

def applyExtrasDev (m : List (String × List (String × String)))
    (dev : Developer) : Developer :=
  { dev with games := dev.games.map (fun gv => (gv.1, applyExtrasGame m gv.2)) }

/-- Lines 510-517: the merge applied over the whole fresh structure. -/
def applyExtras (fresh : List (String × Developer))
    (m : List (String × List (String × String))) : List (String × Developer) :=
  fresh.map (fun dv => (dv.1, applyExtrasDev m dv.2))

/-! ## `index_game_folders` (lines 311-533) -/

structure IndexResult where
  catalog : Catalog
  token : Option String
  count : Nat
deriving DecidableEq

/-- Lines 519-527.  `recent_changes = metadata.setdefault('recent_changes', [])`
aliases the stored list, `extend` grows it in place, and the subsequent
`recent_changes = recent_changes[-10:]` rebinds only the local variable — the
value stored in `metadata` stays untrimmed.  `_trimmed` below is that orphaned
local. -/
def finishMetadata (last_folders : Catalog) (devs : List (String × Developer))
    (new_changes : List String) (change_count : Nat) (token : Option String)
    (now : String) : IndexResult :=
  let recent_changes := last_folders.metadata.recent_changes ++ new_changes
  let _trimmed :=
    if recent_changes.length > 10 then
      recent_changes.drop (recent_changes.length - 10)
    else recent_changes
  let version :=
    if change_count > 0 then some now else last_folders.metadata.version
  { catalog := { developers := devs,
                 metadata := { version := version, recent_changes := recent_changes } },
    token := token, count := change_count }

/-- Lines 311-533.  `folder_structure = last_folders.copy()` is a SHALLOW copy:
the `developers` dict (and everything below it) is shared with `last_folders`.
Every incremental mutation goes through that shared dict, so when the
`except` handler at line 451 re-copies `last_folders`, the extras merge of the
fallback full scan reads the developers dict as mutated by the aborted pass,
and `new_changes` — never reset — keeps the aborted pass's entries.  The
`Sum` value below carries exactly that shared state into the fallback. -/
def index_game_folders (env : DriveEnv) (fuel : Nat) (root_folder_id : String)
    (last_folders : Catalog) (use_changes : Bool) : Except String IndexResult :=
  let incremental :
      (SyncState × String) ⊕ (List (String × Developer) × List String) :=
    if use_changes then
      match env.getChanges with
      | Except.error _ =>
        -- get_changes raised inside the try: nothing mutated yet
        Sum.inr (last_folders.developers, [])
      | Except.ok chs =>
        match runChanges env fuel root_folder_id (initState last_folders.developers) chs.1 with
        | (none, stF) => Sum.inl (stF, chs.2)
        | (some _, stErr) =>
          -- Incremental mode failed: fall back to full scan, but the shared
          -- developers dict already carries the aborted pass's mutations and
          -- new_changes is not reset
          Sum.inr (stErr.devs, stErr.new_changes)
    else Sum.inr (last_folders.developers, [])
  match incremental with
  | Sum.inl res =>
    Except.ok (finishMetadata last_folders res.1.devs res.1.new_changes
      res.1.change_count (some res.2) env.now)
  | Sum.inr fallback =>
    match env.startPageToken with
    | Except.error _ => Except.error "Failed to get start page token"
    | Except.ok tok₂ =>
      let fresh := fullScanDevs env fuel root_folder_id
      let msgs := fallback.2 ++ ["FULL DATABASE RESCAN PERFORMED."]
      let change_count := fresh.length
      let merged := applyExtras fresh (game_id_to_extra fallback.1)
      Except.ok (finishMetadata last_folders merged msgs change_count
        (some tok₂) env.now)

/-! ## `main` (lines 534-557) with the two persisted stores -/

structure MainCfg where
  drive : DriveEnv
  fuel : Nat
  last_folders : Catalog
  change_token : Option String
  dbExists : Bool
  haveWin32 : Bool
  dbLocked : Bool
  dbWriteFails : Bool
  tokenWriteFails : Bool

structure PersistState where
  dbFile : Option Catalog
  tokenFile : Option String
deriving DecidableEq

/-- `save_change_token` guarded by `if new_change_token:` (an empty-string
token is falsy and is not saved). -/
def saveTokenStep (cfg : MainCfg) (r : IndexResult) (ps : PersistState) :
    Option String × PersistState :=
  match r.token with
  | some t =>
    if t ≠ "" then
      if cfg.tokenWriteFails then (some "save_change_token failed", ps)
      else (none, { ps with tokenFile := some t })
    else (none, ps)
  | none => (none, ps)

/-- `main`: index, `save_database` (skipped without an exception when the
target exists, pywin32 is available and the file is locked), then the token
save.  The returned pair is (unhandled exception, state of the two stores). -/
def runMain (cfg : MainCfg) (prev : PersistState) : Option String × PersistState :=
  let use_changes := cfg.change_token.isSome && !cfg.last_folders.developers.isEmpty
  match index_game_folders cfg.drive cfg.fuel ROOT_FOLDER_ID cfg.last_folders use_changes with
  | Except.error e => (some e, prev)
  | Except.ok r =>
    if cfg.dbExists && cfg.haveWin32 && cfg.dbLocked then
      -- "Database file is locked. Cannot save." — logged, no exception
      saveTokenStep cfg r prev
    else if cfg.dbWriteFails then (some "save_database failed", prev)
    else saveTokenStep cfg r { prev with dbFile := some r.catalog }

/-! # Claim-specific scenarios -/

/-! ## C2: shallow-copy fallback scenario

Prior snapshot: developer `D` (id `d1`) owning game `G` (id `g1`) with extras
`{"publisher": "X"}`.  Change feed: first event trashes `g1`, the second is a
file event whose `file` object lacks `mimeType`, so `file['mimeType']` raises
`KeyError` partway through the incremental pass.  The remote tree still
contains `D/G`. -/

def c2prior : Catalog :=
  { developers := [("D",
      { id := "d1",
        games := [("G", { id := "g1", files := [], extras := [("publisher", "X")] })] })]
    metadata := { version := none, recent_changes := [] } }

def c2children : String → List Node
  | "1a7jIAJoELzB3HpXNcuF0tGmDq1jqHs9-" =>
    [{ id := "d1", name := "D", isFolder := true, size := none }]
  | "d1" => [{ id := "g1", name := "G", isFolder := true, size := none }]
  | _ => []

def c2env : DriveEnv :=
  { children := c2children
    info := fun _ => none
    getChanges := Except.ok
      ([{ fileId := some "g1", removed := false,
          file := some { id := "g1", name := some "G", mimeType := some FOLDER_MIME,
                         parents := ["d1"], trashed := true, size := none } },
        { fileId := some "f9", removed := false,
          file := some { id := "f9", name := some "x.zip", mimeType := none,
                         parents := ["g1"], trashed := false, size := some "100" } }], "tokA")
    startPageToken := Except.ok "T2"
    now := "2026-01-01" }

/-- Extras of game `gn` of developer `dn` in the catalog a successful run returns. -/
def resultGameExtras (r : Except String IndexResult) (dn gn : String) :
    Option (List (String × String)) :=
  match r with
  | Except.ok ir =>
    (dget ir.catalog.developers dn).bind (fun d => (dget d.games gn).map (·.extras))
  | Except.error _ => none

/-- Changelog of the catalog a successful run returns. -/
def resultRecentChanges (r : Except String IndexResult) : List String :=
  match r with
  | Except.ok ir => ir.catalog.metadata.recent_changes
  | Except.error _ => []

/-- C2.  If applying the change feed raises an unhandled exception partway
through, the claim says the fallback full scan is seeded from the prior
snapshot exactly as loaded, so the merged game extras come from that untouched
snapshot.  The code violates this: `last_folders.copy()` is shallow, the
aborted pass's deletion of game `G` went through the shared developers dict,
and the fallback's extras merge therefore finds no extras for `G` — the run
ends with `G` stripped of `{"publisher": "X"}`, and the changelog keeps the
aborted pass's `REMOVED GAME: D/G` entry. -/
theorem claim_C2_fallback_reads_mutated_snapshot :
    resultGameExtras (index_game_folders c2env 10 ROOT_FOLDER_ID c2prior true) "D" "G" =
      some [] ∧
    (dget c2prior.developers "D").bind (fun d => (dget d.games "G").map (·.extras)) =
      some [("publisher", "X")] ∧
    resultRecentChanges (index_game_folders c2env 10 ROOT_FOLDER_ID c2prior true) =
      ["REMOVED GAME: D/G", "FULL DATABASE RESCAN PERFORMED."] := by
  refine ⟨rfl, rfl, rfl⟩

/-! ## C4: the changelog trim that is never stored -/

def c4prior : Catalog :=
  { developers := []
    metadata := { version := none,
                  recent_changes := ["c1", "c2", "c3", "c4", "c5", "c6", "c7", "c8",
                                     "c9", "c10"] } }

def c4env : DriveEnv :=
  { children := fun _ => [], info := fun _ => none,
    getChanges := Except.error (), startPageToken := Except.ok "T", now := "N" }

/-- C4.  The claim says the persisted `metadata.recent_changes` never holds
more than 10 entries.  On a prior snapshot already holding 10 entries, a full
rescan appends one more and the run persists all 11: the source's
`recent_changes = recent_changes[-10:]` rebinds a local name and the trimmed
list is never written back into the metadata dict. -/
theorem claim_C4_changelog_not_trimmed :
    c4prior.metadata.recent_changes.length = 10 ∧
    (resultRecentChanges (index_game_folders c4env 5 ROOT_FOLDER_ID c4prior false)).length
      = 11 ∧ 10 < 11 := by
  refine ⟨rfl, rfl, by decide⟩

/-! ## C10: the size display rule -/

/-- C10.  The stored size display string follows the claimed rule — `Unknown`
for a missing size, the raw value for a non-digit string, `n/1048576` to one
decimal plus `' MB'` for `n > 1048576` and `n/1024` to one decimal plus
`' KB'` otherwise, so `2^20` bytes displays as `1024.0 KB` — and the full scan
(lines 144-147) and the incremental file handler (lines 426-429) apply the
identical rule. -/
theorem claim_C10_size_display_rule :
    (∀ size, sizeDisplayScan size = sizeDisplayIncr size) ∧
    (∀ size, sizeDisplayScan size = sizeDisplayClaim size) ∧
    sizeDisplayScan (some "1048576") = "1024.0 KB" ∧
    sizeDisplayScan (some "1048577") = "1.0 MB" ∧
    sizeDisplayScan none = "Unknown" ∧
    sizeDisplayScan (some "12abc") = "12abc" := by
  refine ⟨fun _ => rfl, fun size => ?_, by decide, by decide, by decide, by decide⟩
  cases size with
  | none => decide
  | some s => rfl

/-! ## C6: the retry policy -/

/-- C6 counterexample.  The claim says every 5xx server error is retried with
exponential backoff up to the attempt cap.  A request failing with HTTP 503 —
a 5xx status below the cap of `MAX_RETRIES = 3` attempts — is escalated after
a single attempt with no backoff sleep at all: the code retries only statuses
in `[429, 500]`. -/
theorem claim_C6_counterexample_503_not_retried :
    execute_with_retries (fun _ => (Except.error 503 : Except Nat Unit)) =
      (Except.error 503, 1, []) ∧
    500 ≤ 503 ∧ 503 < 600 ∧ 1 < MAX_RETRIES := by
  refine ⟨rfl, by decide, by decide, by decide⟩

/-- C6 (amended).  Requests are retried exactly on HTTP 429 and HTTP 500, with
backoff delay `RETRY_DELAY_BASE * 2^attempt` doubling per attempt, up to
`MAX_RETRIES` attempts, after which the last error is escalated; any other
status — including the remaining 5xx statuses — propagates immediately after a
single attempt with no backoff. -/
theorem claim_C6_amended_retry_policy {α : Type}
    (attempts : Nat → Except Nat α) (s₀ s₁ s₂ : Nat) :
    (attempts 0 = Except.error s₀ → ¬(s₀ = 429 ∨ s₀ = 500) →
       execute_with_retries attempts = (Except.error s₀, 1, [])) ∧
    (attempts 0 = Except.error s₀ → attempts 1 = Except.error s₁ →
     attempts 2 = Except.error s₂ →
     (s₀ = 429 ∨ s₀ = 500) → (s₁ = 429 ∨ s₁ = 500) →
       execute_with_retries attempts =
         (Except.error s₂, MAX_RETRIES,
          [RETRY_DELAY_BASE * 2 ^ 0, RETRY_DELAY_BASE * 2 ^ 1])) ∧
    (∀ a, attempts 0 = Except.error s₀ → attempts 1 = Except.ok a →
     (s₀ = 429 ∨ s₀ = 500) →
       execute_with_retries attempts = (Except.ok a, 2, [RETRY_DELAY_BASE * 2 ^ 0])) := by
  refine ⟨?_, ?_, ?_⟩
  · intro h0 hns
    have hc : ¬((s₀ = 429 ∨ s₀ = 500) ∧ 0 < MAX_RETRIES - 1) := fun hh => hns hh.1
    show ewrGo attempts (2 + 1) 0 [] = _
    rw [ewrGo, h0]
    dsimp only
    rw [if_neg hc]
  · intro h0 h1 h2 hs0 hs1
    have c0 : ((s₀ = 429 ∨ s₀ = 500) ∧ 0 < MAX_RETRIES - 1) := ⟨hs0, by decide⟩
    have c1 : ((s₁ = 429 ∨ s₁ = 500) ∧ 1 < MAX_RETRIES - 1) := ⟨hs1, by decide⟩
    have c2 : ¬((s₂ = 429 ∨ s₂ = 500) ∧ 2 < MAX_RETRIES - 1) := fun hh =>
      absurd hh.2 (by decide)
    show ewrGo attempts (2 + 1) 0 [] = _
    rw [ewrGo, h0]
    dsimp only
    rw [if_pos c0]
    show ewrGo attempts (1 + 1) 1 _ = _
    rw [ewrGo, h1]
    dsimp only
    rw [if_pos c1]
    show ewrGo attempts (0 + 1) 2 _ = _
    rw [ewrGo, h2]
    dsimp only
    rw [if_neg c2]
    rfl
  · intro a h0 h1 hs0
    have c0 : ((s₀ = 429 ∨ s₀ = 500) ∧ 0 < MAX_RETRIES - 1) := ⟨hs0, by decide⟩
    show ewrGo attempts (2 + 1) 0 [] = _
    rw [ewrGo, h0]
    dsimp only
    rw [if_pos c0]
    show ewrGo attempts (1 + 1) 1 _ = _
    rw [ewrGo, h1]
    rfl

theorem claim_C6_amended_witness :
    execute_with_retries (fun _ => (Except.error 502 : Except Nat Unit)) =
      (Except.error 502, 1, []) ∧
    execute_with_retries (fun _ => (Except.error 500 : Except Nat Unit)) =
      (Except.error 500, MAX_RETRIES, [RETRY_DELAY_BASE * 2 ^ 0, RETRY_DELAY_BASE * 2 ^ 1]) ∧
    execute_with_retries (fun i => if i = 0 then (Except.error 429 : Except Nat Unit)
                                   else Except.ok ()) =
      (Except.ok (), 2, [RETRY_DELAY_BASE * 2 ^ 0]) := by
  refine ⟨?_, ?_, ?_⟩
  · exact (claim_C6_amended_retry_policy (fun _ => Except.error 502) 502 0 0).1
      rfl (by decide)
  · exact (claim_C6_amended_retry_policy (fun _ => Except.error 500) 500 500 500).2.1
      rfl rfl rfl (Or.inr rfl) (Or.inr rfl)
  · exact (claim_C6_amended_retry_policy
      (fun i => if i = 0 then Except.error 429 else Except.ok ()) 429 0 0).2.2
      () rfl rfl (Or.inl rfl)

/-! ## C3: token persistence -/

def lockedEnv : DriveEnv :=
  { children := fun _ => [], info := fun _ => none,
    getChanges := Except.error (), startPageToken := Except.ok "T2", now := "N" }

def lockedPrior : Catalog :=
  { developers := [], metadata := { version := none, recent_changes := [] } }

def lockedCfg : MainCfg :=
  { drive := lockedEnv, fuel := 5, last_folders := lockedPrior,
    change_token := some "OLD", dbExists := true, haveWin32 := true,
    dbLocked := true, dbWriteFails := false, tokenWriteFails := false }

def lockedPrev : PersistState := { dbFile := none, tokenFile := some "OLD" }

/-- C3 counterexample.  The claim says that when the snapshot save is skipped
because the target file is locked, the previously stored token is left intact.
In this run the save is indeed skipped (the snapshot store still holds
nothing), the run raises no exception — and the stored token nevertheless
advances from `OLD` to the freshly fetched `T2`, because `save_database`
returns instead of raising and `main` then saves the new token
unconditionally. -/
theorem claim_C3_counterexample_locked_save_advances_token :
    (runMain lockedCfg lockedPrev).1 = none ∧
    (runMain lockedCfg lockedPrev).2.dbFile = none ∧
    lockedPrev.tokenFile = some "OLD" ∧
    (runMain lockedCfg lockedPrev).2.tokenFile = some "T2" := by
  refine ⟨rfl, rfl, rfl, rfl⟩

theorem saveTokenStep_of_error (cfg : MainCfg) (r : IndexResult)
    (ps : PersistState) (e : String) (st : PersistState)
    (h : saveTokenStep cfg r ps = (some e, st)) : st = ps := by
  unfold saveTokenStep at h
  rcases htok : r.token with _ | t
  · rw [htok] at h
    injection h with h1 h2
    exact Option.noConfusion h1
  · rw [htok] at h
    dsimp only at h
    by_cases ht : t ≠ ""
    · rw [if_pos ht] at h
      by_cases hw : cfg.tokenWriteFails
      · rw [if_pos hw] at h
        injection h with h1 h2
        exact h2.symm
      · rw [if_neg hw] at h
        injection h with h1 h2
        exact absurd h1 (by simp)
    · rw [if_neg ht] at h
      injection h with h1 h2
      exact absurd h1 (by simp)

/-- C3 (amended).  The stored token is untouched by every run that ends in an
unhandled exception (whatever the failing step); but when the snapshot save is
skipped because the target is locked, the run continues normally and the fresh
token IS persisted. -/
theorem claim_C3_amended_token_persistence :
    (∀ (cfg : MainCfg) (prev : PersistState) (e : String) (st : PersistState),
       runMain cfg prev = (some e, st) → st.tokenFile = prev.tokenFile) ∧
    (∀ (cfg : MainCfg) (prev : PersistState) (r : IndexResult) (t : String),
       cfg.dbExists = true → cfg.haveWin32 = true → cfg.dbLocked = true →
       cfg.tokenWriteFails = false →
       index_game_folders cfg.drive cfg.fuel ROOT_FOLDER_ID cfg.last_folders
         (cfg.change_token.isSome && !cfg.last_folders.developers.isEmpty) =
           Except.ok r →
       r.token = some t → t ≠ "" →
       runMain cfg prev = (none, { prev with tokenFile := some t })) := by
  constructor
  · intro cfg prev e st h
    rw [runMain] at h
    rcases hidx : index_game_folders cfg.drive cfg.fuel ROOT_FOLDER_ID cfg.last_folders
        (cfg.change_token.isSome && !cfg.last_folders.developers.isEmpty) with f | r
    · rw [hidx] at h
      dsimp only at h
      injection h with h1 h2
      rw [← h2]
    · rw [hidx] at h
      dsimp only at h
      by_cases hlock : (cfg.dbExists && cfg.haveWin32 && cfg.dbLocked) = true
      · rw [if_pos hlock] at h
        rw [saveTokenStep_of_error cfg r prev e st h]
      · rw [if_neg hlock] at h
        by_cases hw : cfg.dbWriteFails
        · rw [if_pos hw] at h
          injection h with h1 h2
          rw [← h2]
        · rw [if_neg hw] at h
          rw [saveTokenStep_of_error cfg r _ e st h]
  · intro cfg prev r t h1 h2 h3 h4 hidx htok ht
    rw [runMain, hidx]
    dsimp only
    rw [if_pos (by rw [h1, h2, h3]; rfl)]
    rw [saveTokenStep, htok]
    dsimp only
    rw [if_pos ht, if_neg (by rw [h4]; exact Bool.false_ne_true)]

def lockedIdxResult : IndexResult :=
  { catalog := { developers := []
                 metadata := { version := none
                               recent_changes := ["FULL DATABASE RESCAN PERFORMED."] } }
    token := some "T2"
    count := 0 }

theorem claim_C3_amended_witness :
    lockedCfg.dbExists = true ∧ lockedCfg.dbLocked = true ∧
    lockedCfg.tokenWriteFails = false ∧
    runMain lockedCfg lockedPrev = (none, { lockedPrev with tokenFile := some "T2" }) := by
  refine ⟨rfl, rfl, rfl, ?_⟩
  exact claim_C3_amended_token_persistence.2 lockedCfg lockedPrev lockedIdxResult "T2"
    rfl rfl rfl rfl rfl rfl (by decide)

/-! ## C9: developer rename -/

def c9devs : List (String × Developer) :=
  [("A", { id := "d1", games := [] }),
   ("B", { id := "d2",
           games := [("G", { id := "g", files := [], extras := [("k", "v")] })] })]

def c9change : Change :=
  { fileId := some "d1", removed := false,
    file := some { id := "d1", name := some "B", mimeType := some FOLDER_MIME,
                   parents := [ROOT_FOLDER_ID], trashed := false, size := none } }

def c9env : DriveEnv :=
  { children := fun _ => [], info := fun _ => none,
    getChanges := Except.error (), startPageToken := Except.error (), now := "" }

/-- C9 counterexample.  A rename event for developer id `d1` (stored name `A`)
to the new name `B` — which another developer (id `d2`, owning a game with
extras) already bears.  The claim says no other developer entry is modified;
in fact `developers['B'] = developers.pop('A')` overwrites developer `d2`
in place, destroying it together with its games and extras. -/
theorem claim_C9_counterexample_rename_collision :
    (match applyChange c9env 5 ROOT_FOLDER_ID (initState c9devs) c9change with
     | Except.ok st => some st.devs
     | Except.error _ => none) = some [("B", { id := "d1", games := [] })] ∧
    dget c9devs "B" =
      some { id := "d2",
             games := [("G", { id := "g", files := [], extras := [("k", "v")] })] } := by
  refine ⟨rfl, rfl⟩

/-! ## Association-list lemmas (Python dict semantics) -/

theorem dget_of_dmem_false {α : Type} (d : List (String × α)) (k : String)
    (h : dmem d k = false) : dget d k = none := by
  unfold dmem at h
  cases hg : dget d k with
  | none => rfl
  | some v => rw [hg] at h; simp at h

theorem getE_of_dget {α : Type} (d : List (String × α)) (k : String) (v : α)
    (h : dget d k = some v) : getE d k = Except.ok v := by
  unfold getE
  rw [h]

theorem dmem_of_dget {α : Type} (d : List (String × α)) (k : String) (v : α)
    (h : dget d k = some v) : dmem d k = true := by
  unfold dmem
  rw [h]
  rfl

theorem dset_of_dmem_false {α : Type} (k : String) (v : α) :
    ∀ (d : List (String × α)), dmem d k = false → dset d k v = d ++ [(k, v)] := by
  intro d
  induction d with
  | nil => intro _; rfl
  | cons kv rest ih =>
    intro h
    obtain ⟨k₀, v₀⟩ := kv
    by_cases hk : k₀ = k
    · exfalso
      unfold dmem dget at h
      rw [if_pos hk] at h
      simp at h
    · show dset ((k₀, v₀) :: rest) k v = _
      rw [dset, if_neg hk]
      have hrest : dmem rest k = false := by
        unfold dmem dget at h
        rw [if_neg hk] at h
        exact h
      rw [ih hrest]
      rfl

theorem dmem_dremove_false {α : Type} (k k' : String) :
    ∀ (d : List (String × α)), dmem d k' = false → dmem (dremove d k) k' = false := by
  intro d
  induction d with
  | nil => intro _; rfl
  | cons kv rest ih =>
    intro h
    obtain ⟨k₀, v₀⟩ := kv
    have hne : k₀ ≠ k' := by
      intro he
      unfold dmem dget at h
      rw [if_pos he] at h
      simp at h
    have hrest : dmem rest k' = false := by
      unfold dmem dget at h
      rw [if_neg hne] at h
      exact h
    show dmem (dremove ((k₀, v₀) :: rest) k) k' = false
    rw [dremove]
    by_cases hk : k₀ = k
    · rw [if_pos hk]
      exact hrest
    · rw [if_neg hk]
      unfold dmem dget
      rw [if_neg hne]
      exact ih hrest

theorem dget_dremove_ne {α : Type} (k k' : String) (hne : k ≠ k') :
    ∀ (d : List (String × α)), dget (dremove d k) k' = dget d k' := by
  intro d
  induction d with
  | nil => rfl
  | cons kv rest ih =>
    obtain ⟨k₀, v₀⟩ := kv
    show dget (dremove ((k₀, v₀) :: rest) k) k' = _
    rw [dremove]
    by_cases hk : k₀ = k
    · rw [if_pos hk]
      rw [dget, if_neg (hk ▸ hne)]
    · rw [if_neg hk]
      by_cases hk' : k₀ = k'
      · rw [dget, if_pos hk', dget, if_pos hk']
      · rw [dget, if_neg hk', dget, if_neg hk']
        exact ih

theorem dget_dremove_self {α : Type} (k : String) :
    ∀ (d : List (String × α)), (d.map Prod.fst).Nodup →
      dget (dremove d k) k = none := by
  intro d
  induction d with
  | nil => intro _; rfl
  | cons kv rest ih =>
    intro hnd
    obtain ⟨k₀, v₀⟩ := kv
    rw [List.map_cons, List.nodup_cons] at hnd
    show dget (dremove ((k₀, v₀) :: rest) k) k = none
    rw [dremove]
    by_cases hk : k₀ = k
    · rw [if_pos hk]
      subst hk
      cases hg : dget rest k₀ with
      | none => rfl
      | some v =>
        exfalso
        have : k₀ ∈ rest.map Prod.fst := by
          clear ih hnd
          induction rest with
          | nil => simp [dget] at hg
          | cons kv₂ rest₂ ih₂ =>
            obtain ⟨k₂, v₂⟩ := kv₂
            rw [dget] at hg
            by_cases h₂ : k₂ = k₀
            · rw [List.map_cons]
              exact h₂ ▸ List.mem_cons_self _ _
            · rw [if_neg h₂] at hg
              exact List.mem_cons_of_mem _ (ih₂ hg)
        exact hnd.1 this
    · rw [if_neg hk]
      rw [dget, if_neg hk]
      exact ih hnd.2

theorem dget_append_left {α : Type} (k : String) (v : α) :
    ∀ (d₁ d₂ : List (String × α)), dget d₁ k = some v → dget (d₁ ++ d₂) k = some v := by
  intro d₁
  induction d₁ with
  | nil => intro d₂ h; exact absurd h (by simp [dget])
  | cons kv rest ih =>
    intro d₂ h
    obtain ⟨k₀, v₀⟩ := kv
    rw [dget] at h
    show dget ((k₀, v₀) :: (rest ++ d₂)) k = some v
    rw [dget]
    by_cases hk : k₀ = k
    · rw [if_pos hk] at h ⊢
      exact h
    · rw [if_neg hk] at h ⊢
      exact ih d₂ h

theorem dget_append_right {α : Type} (k : String) :
    ∀ (d₁ d₂ : List (String × α)), dget d₁ k = none → dget (d₁ ++ d₂) k = dget d₂ k := by
  intro d₁
  induction d₁ with
  | nil => intro d₂ _; rfl
  | cons kv rest ih =>
    intro d₂ h
    obtain ⟨k₀, v₀⟩ := kv
    rw [dget] at h
    show dget ((k₀, v₀) :: (rest ++ d₂)) k = dget d₂ k
    rw [dget]
    by_cases hk : k₀ = k
    · rw [if_pos hk] at h
      exact absurd h (by simp)
    · rw [if_neg hk] at h ⊢
      exact ih d₂ h

theorem dget_map_val {α β : Type} (f : α → β) (k : String) :
    ∀ (d : List (String × α)),
      dget (d.map (fun kv => (kv.1, f kv.2))) k = (dget d k).map f := by
  intro d
  induction d with
  | nil => rfl
  | cons kv rest ih =>
    obtain ⟨k₀, v₀⟩ := kv
    show dget ((k₀, f v₀) :: rest.map _) k = _
    rw [dget, dget]
    by_cases hk : k₀ = k
    · rw [if_pos hk, if_pos hk]
      rfl
    · rw [if_neg hk, if_neg hk]
      exact ih

theorem except_ok_bind {ε α β : Type} (a : α) (f : α → Except ε β) :
    ((Except.ok a : Except ε α) >>= f) = f a := rfl

theorem except_map_ok {ε α β : Type} (g : α → β) (a : α) :
    (g <$> (Except.ok a : Except ε α)) = Except.ok (g a) := rfl

/-- C9 (amended).  A rename event for a known developer id whose parent is the
catalog root re-keys the developer entry in place — its remoteId, its whole
games mapping (and hence every game's extras) are unchanged and every OTHER
developer entry is untouched — provided no other developer already bears the
new name (`hfresh`); the counterexample shows the colliding case destroys the
other entry. -/
theorem claim_C9_amended_rename_rekeys_in_place
    (env : DriveEnv) (fuel : Nat) (root : String) (st : SyncState)
    (id_ new_name old_name : String) (dev : Developer)
    (hmap : dget st.dev_id_to_name id_ = some old_name)
    (hdev : dget st.devs old_name = some dev)
    (hid : dev.id = id_)
    (hne : old_name ≠ new_name)
    (hfresh : dmem st.devs new_name = false)
    (hkeys : (st.devs.map Prod.fst).Nodup) :
    ∃ st₂ : SyncState,
      applyChange env fuel root st
        { fileId := some id_, removed := false,
          file := some { id := id_, name := some new_name, mimeType := some FOLDER_MIME,
                         parents := [root], trashed := false, size := none } } =
        Except.ok st₂ ∧
      st₂.devs = dremove st.devs old_name ++ [(new_name, dev)] ∧
      dget st₂.devs new_name = some dev ∧
      dget st₂.devs old_name = none ∧
      (∀ k, k ≠ old_name → k ≠ new_name → dget st₂.devs k = dget st.devs k) ∧
      st₂.new_changes = st.new_changes ++
        ["RENAMED DEVELOPER: " ++ old_name ++ " -> " ++ new_name] ∧
      st₂.change_count = st.change_count + 1 := by
  have happ : applyChange env fuel root st
      { fileId := some id_, removed := false,
        file := some { id := id_, name := some new_name, mimeType := some FOLDER_MIME,
                       parents := [root], trashed := false, size := none } } =
      Except.ok (rebuildMaps
        { st with
            devs := dset (dremove st.devs old_name) new_name ({ dev with id := id_ })
            new_changes := st.new_changes ++
              ["RENAMED DEVELOPER: " ++ old_name ++ " -> " ++ new_name]
            change_count := st.change_count + 1 }) := by
    unfold applyChange
    simp only [dmem_of_dget _ _ _ hmap, getE_of_dget _ _ _ hmap, getE_of_dget _ _ _ hdev,
      List.head?, Option.getD, Bool.false_or, Bool.or_false, if_true, if_false]
    simp [hne, except_ok_bind, except_map_ok, getE_of_dget _ _ _ hdev]
  have hdevEq : ({ dev with id := id_ } : Developer) = dev := by
    rw [← hid]
  have hrm : dmem (dremove st.devs old_name) new_name = false :=
    dmem_dremove_false old_name new_name st.devs hfresh
  have hdevs : dset (dremove st.devs old_name) new_name ({ dev with id := id_ }) =
      dremove st.devs old_name ++ [(new_name, dev)] := by
    rw [hdevEq]
    exact dset_of_dmem_false new_name dev (dremove st.devs old_name) hrm
  refine ⟨_, happ, ?_, ?_, ?_, ?_, rfl, rfl⟩
  · exact hdevs
  · show dget (dset (dremove st.devs old_name) new_name ({ dev with id := id_ })) new_name
        = some dev
    rw [hdevs]
    rw [dget_append_right new_name _ _ (dget_of_dmem_false _ _ hrm)]
    simp [dget]
  · show dget (dset (dremove st.devs old_name) new_name ({ dev with id := id_ })) old_name
        = none
    rw [hdevs]
    rw [dget_append_right old_name _ _ (dget_dremove_self old_name st.devs hkeys)]
    simp [dget, Ne.symm hne]
  · intro k hk1 hk2
    show dget (dset (dremove st.devs old_name) new_name ({ dev with id := id_ })) k
        = dget st.devs k
    rw [hdevs]
    cases hg : dget st.devs k with
    | some v =>
      have : dget (dremove st.devs old_name) k = some v := by
        rw [dget_dremove_ne old_name k (fun he => hk1 he.symm)]
        exact hg
      exact dget_append_left k v _ _ this
    | none =>
      have h₁ : dget (dremove st.devs old_name) k = none := by
        rw [dget_dremove_ne old_name k (fun he => hk1 he.symm)]
        exact hg
      rw [dget_append_right k _ _ h₁]
      have hnk : ¬new_name = k := fun he => hk2 he.symm
      rw [dget, if_neg hnk]
      rfl

def c9wDev : Developer :=
  { id := "d1", games := [("G", { id := "g1", files := [], extras := [("n", "1")] })] }

def c9wSt : SyncState := initState [("A", c9wDev)]

theorem claim_C9_amended_witness :
    (match applyChange c9env 5 ROOT_FOLDER_ID c9wSt
        { fileId := some "d1", removed := false,
          file := some { id := "d1", name := some "B", mimeType := some FOLDER_MIME,
                         parents := [ROOT_FOLDER_ID], trashed := false, size := none } } with
     | Except.ok st₂ => some (st₂.devs, st₂.change_count)
     | Except.error _ => none) = some ([("B", c9wDev)], 1) := by
  obtain ⟨st₂, happ, hdevs, -, -, -, -, hcount⟩ :=
    claim_C9_amended_rename_rekeys_in_place c9env 5 ROOT_FOLDER_ID c9wSt
      "d1" "B" "A" c9wDev rfl rfl rfl (by decide) rfl (by decide)
  rw [happ]
  dsimp only
  rw [hdevs, hcount]
  rfl

/-! ## C5: the token persisted after a failed incremental pass -/

theorem runMain_ok_unlocked (cfg : MainCfg) (prev : PersistState) (r : IndexResult)
    (t : String)
    (hidx : index_game_folders cfg.drive cfg.fuel ROOT_FOLDER_ID cfg.last_folders
      (cfg.change_token.isSome && !cfg.last_folders.developers.isEmpty) = Except.ok r)
    (hnl : (cfg.dbExists && cfg.haveWin32 && cfg.dbLocked) = false)
    (hdw : cfg.dbWriteFails = false)
    (htok : r.token = some t)
    (htb : t ≠ "")
    (htw : cfg.tokenWriteFails = false) :
    runMain cfg prev =
      (none, { dbFile := some r.catalog, tokenFile := some t }) := by
  rw [runMain, hidx]
  dsimp only
  rw [if_neg (by rw [hnl]; exact Bool.false_ne_true)]
  rw [if_neg (by rw [hdw]; exact Bool.false_ne_true)]
  rw [saveTokenStep, htok]
  dsimp only
  rw [if_pos htb, if_neg (by rw [htw]; exact Bool.false_ne_true)]

/-- C5.  If the incremental pass throws partway through (`hrc`), the token the
run persists equals exactly the fresh start-page token the fallback full scan
fetches (`hsp`), independent of the token the aborted pass's `get_changes`
returned. -/
theorem claim_C5_fallback_token_is_start_page_token
    (cfg : MainCfg) (prev : PersistState) (chs : List Change) (tokA : String)
    (e : String) (tokB : String)
    (huc : (cfg.change_token.isSome && !cfg.last_folders.developers.isEmpty) = true)
    (hgc : cfg.drive.getChanges = Except.ok (chs, tokA))
    (hrc : (runChanges cfg.drive cfg.fuel ROOT_FOLDER_ID
             (initState cfg.last_folders.developers) chs).1 = some e)
    (hsp : cfg.drive.startPageToken = Except.ok tokB)
    (hnl : (cfg.dbExists && cfg.haveWin32 && cfg.dbLocked) = false)
    (hdw : cfg.dbWriteFails = false)
    (htw : cfg.tokenWriteFails = false)
    (htb : tokB ≠ "") :
    (runMain cfg prev).1 = none ∧
    (runMain cfg prev).2.tokenFile = some tokB := by
  have hpair : runChanges cfg.drive cfg.fuel ROOT_FOLDER_ID
      (initState cfg.last_folders.developers) chs =
      (some e, (runChanges cfg.drive cfg.fuel ROOT_FOLDER_ID
        (initState cfg.last_folders.developers) chs).2) := by
    rw [← hrc]
  have hidx : index_game_folders cfg.drive cfg.fuel ROOT_FOLDER_ID cfg.last_folders
      (cfg.change_token.isSome && !cfg.last_folders.developers.isEmpty) =
      Except.ok (finishMetadata cfg.last_folders
        (applyExtras (fullScanDevs cfg.drive cfg.fuel ROOT_FOLDER_ID)
          (game_id_to_extra (runChanges cfg.drive cfg.fuel ROOT_FOLDER_ID
            (initState cfg.last_folders.developers) chs).2.devs))
        ((runChanges cfg.drive cfg.fuel ROOT_FOLDER_ID
            (initState cfg.last_folders.developers) chs).2.new_changes ++
          ["FULL DATABASE RESCAN PERFORMED."])
        (fullScanDevs cfg.drive cfg.fuel ROOT_FOLDER_ID).length
        (some tokB) cfg.drive.now) := by
    rw [index_game_folders, huc, hgc]
    dsimp only
    rw [hpair]
    dsimp only
    rw [hsp]
    rfl
  have hmain := runMain_ok_unlocked cfg prev _ tokB hidx hnl hdw rfl htb htw
  rw [hmain]
  exact ⟨rfl, rfl⟩

def c5prior : Catalog :=
  { developers := [("D",
      { id := "d1",
        games := [("G", { id := "g1", files := [], extras := [("publisher", "X")] })] })]
    metadata := { version := none, recent_changes := [] } }

def c5children : String → List Node
  | "1a7jIAJoELzB3HpXNcuF0tGmDq1jqHs9-" =>
    [{ id := "d1", name := "D", isFolder := true, size := none }]
  | "d1" => [{ id := "g1", name := "G", isFolder := true, size := none }]
  | _ => []

def c5changes : List Change :=
  [{ fileId := some "g1", removed := false,
     file := some { id := "g1", name := some "G", mimeType := some FOLDER_MIME,
                    parents := ["d1"], trashed := true, size := none } },
   { fileId := some "f9", removed := false,
     file := some { id := "f9", name := some "x.zip", mimeType := none,
                    parents := ["g1"], trashed := false, size := some "100" } }]

def c5env : DriveEnv :=
  { children := c5children
    info := fun _ => none
    getChanges := Except.ok (c5changes, "tokA")
    startPageToken := Except.ok "T2"
    now := "2026-01-01" }

def c5cfg : MainCfg :=
  { drive := c5env, fuel := 10, last_folders := c5prior, change_token := some "OLD",
    dbExists := false, haveWin32 := false, dbLocked := false,
    dbWriteFails := false, tokenWriteFails := false }

def c5prev : PersistState := { dbFile := none, tokenFile := some "OLD" }

theorem claim_C5_witness :
    (runChanges c5cfg.drive c5cfg.fuel ROOT_FOLDER_ID
      (initState c5cfg.last_folders.developers) c5changes).1 = some "KeyError" ∧
    c5cfg.drive.startPageToken = Except.ok "T2" ∧
    (runMain c5cfg c5prev).1 = none ∧
    (runMain c5cfg c5prev).2.tokenFile = some "T2" := by
  refine ⟨rfl, rfl, ?_⟩
  exact claim_C5_fallback_token_is_start_page_token c5cfg c5prev c5changes "tokA"
    "KeyError" "T2" rfl rfl rfl rfl rfl rfl rfl (by decide)

/-! ## C7: exclusion of the reserved ignore-folder name -/

/-- `s₁ ++ "/" ++ s₂ ++ "/" ++ ... ++ fname`: a relative path decomposed into
folder segments plus the file name. -/
def joinSegs : List String → String → String
  | [], fname => fname
  | s :: ss, fname => s ++ "/" ++ joinSegs ss fname

theorem subPath_eq (p n : String) :
    (if p ≠ "" then p ++ n else n) = p ++ n := by
  by_cases hp : p ≠ ""
  · rw [if_pos hp]
  · rw [if_neg hp]
    push_neg at hp
    rw [hp]
    rfl

theorem dget_dset_self {α : Type} (k : String) (v : α) :
    ∀ d : List (String × α), dget (dset d k v) k = some v := by
  intro d
  induction d with
  | nil => simp [dset, dget]
  | cons kv rest ih =>
    obtain ⟨k₀, v₀⟩ := kv
    show dget (dset ((k₀, v₀) :: rest) k v) k = some v
    rw [dset]
    by_cases hk : k₀ = k
    · rw [if_pos hk, dget, if_pos rfl]
    · rw [if_neg hk, dget, if_neg hk]
      exact ih

theorem dget_dset_ne {α : Type} (k k' : String) (v : α) (hne : k ≠ k') :
    ∀ d : List (String × α), dget (dset d k v) k' = dget d k' := by
  intro d
  induction d with
  | nil => simp [dset, dget, hne]
  | cons kv rest ih =>
    obtain ⟨k₀, v₀⟩ := kv
    show dget (dset ((k₀, v₀) :: rest) k v) k' = _
    rw [dset]
    by_cases hk : k₀ = k
    · rw [if_pos hk, dget, if_neg hne, dget, if_neg (hk ▸ hne)]
    · rw [if_neg hk, dget, dget]
      by_cases hk' : k₀ = k'
      · rw [if_pos hk', if_pos hk']
      · rw [if_neg hk', if_neg hk']
        exact ih

/-- Where a value in a fold of dict assignments can come from. -/
theorem dget_foldl_dset_mem {β γ : Type} (key : γ → String) (build : γ → β) :
    ∀ (l : List γ) (init : List (String × β)) (k : String) (v : β),
      dget (l.foldl (fun acc x => dset acc (key x) (build x)) init) k = some v →
      dget init k = some v ∨ ∃ x ∈ l, key x = k ∧ build x = v := by
  intro l
  induction l with
  | nil => intro init k v h; exact Or.inl h
  | cons a l ih =>
    intro init k v h
    rw [List.foldl_cons] at h
    rcases ih _ k v h with h₁ | ⟨x, hx, hk, hb⟩
    · by_cases hka : key a = k
      · right
        refine ⟨a, List.mem_cons_self a l, hka, ?_⟩
        rw [hka] at h₁
        rw [dget_dset_self k (build a) init] at h₁
        exact Option.some.inj h₁
      · left
        rw [dget_dset_ne (key a) k (build a) hka init] at h₁
        exact h₁
    · exact Or.inr ⟨x, List.mem_cons_of_mem a hx, hk, hb⟩

/-- Every record produced by the recursive walk carries a tracked extension and
a path that decomposes into folder segments not named in the ignore list,
followed by the file name. -/
theorem rlfwpItems_mem (children : String → List Node) (ign : List String) :
    ∀ (fuel : Nat) (items : List Node) (p : String) (r : FileRec),
      r ∈ rlfwpItems children ign fuel items p →
      r.type = pySuffix r.name ∧ trackedExts.contains r.type = true ∧
      ∃ segs : List String,
        (∀ s ∈ segs, ign.contains s = false) ∧ r.path = p ++ joinSegs segs r.name := by
  intro fuel
  induction fuel with
  | zero =>
    intro items p r hr
    cases items with
    | nil => simp [rlfwpItems] at hr
    | cons a rest => simp [rlfwpItems] at hr
  | succ fuel ih =>
    intro items p r hr
    cases items with
    | nil => simp [rlfwpItems] at hr
    | cons item rest =>
      rw [rlfwpItems] at hr
      rcases List.mem_append.mp hr with hl | hrr
      · by_cases hf : item.isFolder = true
        · rw [if_pos hf] at hl
          by_cases hi : ign.contains item.name = true
          · rw [if_pos hi] at hl
            simp at hl
          · rw [if_neg hi] at hl
            obtain ⟨h1, h2, segs, hsegs, hpath⟩ := ih (children item.id) _ r hl
            refine ⟨h1, h2, item.name :: segs, ?_, ?_⟩
            · intro s hs
              rcases List.mem_cons.mp hs with heq | hs₂
              · rw [heq]
                exact Bool.eq_false_iff.mpr hi
              · exact hsegs s hs₂
            · rw [hpath]
              have hsub : (if p ≠ "" then p ++ item.name ++ "/" else item.name ++ "/") =
                  p ++ item.name ++ "/" := by
                by_cases hp : p ≠ ""
                · rw [if_pos hp]
                · rw [if_neg hp]
                  push_neg at hp
                  rw [hp]
                  rfl
              rw [hsub, joinSegs]
              rw [String.append_assoc p item.name "/",
                  String.append_assoc p (item.name ++ "/") (joinSegs segs r.name),
                  String.append_assoc item.name "/" (joinSegs segs r.name)]
        · rw [if_neg hf] at hl
          by_cases ht : trackedExts.contains (pySuffix item.name) = true
          · rw [if_pos ht] at hl
            have hr₀ : r = { name := item.name, id := item.id,
                             size := sizeDisplayScan item.size,
                             type := pySuffix item.name,
                             path := if p ≠ "" then p ++ item.name else item.name } := by
              simpa using hl
            refine ⟨by rw [hr₀], by rw [hr₀]; exact ht, [], by intro s hs; simp at hs, ?_⟩
            rw [hr₀, joinSegs]
            exact subPath_eq p item.name
          · rw [if_neg ht] at hl
            simp at hl
      · exact ih rest p r hrr

/-- A successful ancestry resolution only returns names the walk has checked
against `Old` (beyond whatever was already accumulated). -/
theorem fgpGo_resolved_no_old (info : String → Option FolderInfo) (games : List String) :
    ∀ (fuel : Nat) (current : String) (acc : List String) (parts : List String)
      (gid : String),
      fgpGo info games fuel current acc = some (parts, gid) →
      ∀ s ∈ parts, s ∈ acc ∨ s ≠ "Old" := by
  intro fuel
  induction fuel with
  | zero =>
    intro current acc parts gid h s hs
    rw [fgpGo] at h
    by_cases hg : games.contains current = true
    · rw [if_pos hg] at h
      injection h with h₁
      injection h₁ with h₂ h₃
      rw [← h₂] at hs
      exact Or.inl (List.mem_reverse.mp hs)
    · rw [if_neg hg] at h
      exact absurd h (by simp)
  | succ fuel ih =>
    intro current acc parts gid h s hs
    rw [fgpGo] at h
    by_cases h₀ : current = ""
    · rw [if_pos h₀] at h
      by_cases hg : games.contains current = true
      · rw [if_pos hg] at h
        injection h with h₁
        injection h₁ with h₂ h₃
        rw [← h₂] at hs
        exact Or.inl (List.mem_reverse.mp hs)
      · rw [if_neg hg] at h
        exact absurd h (by simp)
    · rw [if_neg h₀] at h
      by_cases hg : games.contains current = true
      · rw [if_pos hg] at h
        injection h with h₁
        injection h₁ with h₂ h₃
        rw [← h₂] at hs
        exact Or.inl (List.mem_reverse.mp hs)
      · rw [if_neg hg] at h
        cases hinfo : info current with
        | none => rw [hinfo] at h; exact absurd h (by simp)
        | some fi =>
          rw [hinfo] at h
          dsimp only at h
          by_cases hold : fi.name = "Old"
          · rw [if_pos hold] at h
            exact absurd h (by simp)
          · rw [if_neg hold] at h
            cases hpar : fi.parents with
            | nil => rw [hpar] at h; exact absurd h (by simp)
            | cons pp rest =>
              rw [hpar] at h
              rcases ih pp (fi.name :: acc) parts gid h s hs with hacc | hne
              · rcases List.mem_cons.mp hacc with heq | hacc₂
                · exact Or.inr (heq ▸ hold)
                · exact Or.inl hacc₂
              · exact Or.inr hne

/-- Meeting a folder named `Old` on the walk forces the unresolved outcome. -/
theorem fgpGo_none_of_oldOnWalk (info : String → Option FolderInfo)
    (games : List String) :
    ∀ (fuel : Nat) (current : String) (acc : List String),
      oldOnWalk info games fuel current = true →
      fgpGo info games fuel current acc = none := by
  intro fuel
  induction fuel with
  | zero =>
    intro current acc h
    rw [oldOnWalk] at h
    exact absurd h (by simp)
  | succ fuel ih =>
    intro current acc h
    rw [oldOnWalk] at h
    rw [fgpGo]
    by_cases h₀ : current = ""
    · rw [if_pos h₀] at h
      exact absurd h (by simp)
    · rw [if_neg h₀] at h
      by_cases hg : games.contains current = true
      · rw [if_pos hg] at h
        exact absurd h (by simp)
      · rw [if_neg hg] at h
        rw [if_neg h₀, if_neg hg]
        cases hinfo : info current with
        | none => rw [hinfo] at h
        | some fi =>
          rw [hinfo] at h
          dsimp only at h
          dsimp only
          by_cases hold : fi.name = "Old"
          · rw [if_pos hold]
          · rw [if_neg hold]
            rw [decide_eq_false hold, Bool.false_or] at h
            cases hpar : fi.parents with
            | nil => rw [hpar] at h
            | cons pp rest =>
              rw [hpar] at h
              dsimp only at h ⊢
              exact ih pp (fi.name :: acc) h

/-- Records produced by the walk started at the game root (`current_path = ""`,
ignore list `['Old']`) have an `Old`-free segment decomposition and a tracked
(hence non-`Old`) file name. -/
theorem rlfwpItems_root_old_free (children : String → List Node) (fuel : Nat)
    (items : List Node) (r : FileRec)
    (hr : r ∈ rlfwpItems children ["Old"] fuel items "") :
    r.name ≠ "Old" ∧ r.type = pySuffix r.name ∧
    trackedExts.contains r.type = true ∧
    ∃ segs : List String, (∀ s ∈ segs, s ≠ "Old") ∧
      r.path = joinSegs segs r.name := by
  obtain ⟨h1, h2, segs, hsegs, hpath⟩ :=
    rlfwpItems_mem children ["Old"] fuel items "" r hr
  have hsegs₂ : ∀ s ∈ segs, s ≠ "Old" := by
    intro s hs heq
    have hc := hsegs s hs
    rw [heq] at hc
    exact absurd hc (by decide)
  have hname : r.name ≠ "Old" := by
    intro he
    have hps : pySuffix "Old" = "" := rfl
    rw [he, hps] at h1
    rw [h1] at h2
    exact absurd h2 (by decide)
  refine ⟨hname, h1, h2, segs, hsegs₂, ?_⟩
  rw [hpath]
  rfl

/-- C7.  Exclusion of the reserved ignore-folder name `Old`:
(a) the recursive full-scan walk contributes nothing for a subtree rooted at a
folder whose name is on the ignore list; (b) every record the walk produces
from a game root decomposes into `Old`-free folder segments plus a tracked
file name, so no relativePath it stores contains an `Old` segment; (c) a
successful incremental ancestry resolution never returns an `Old` path
segment; (d) a walk that meets a folder named `Old` reports unresolved; (e)
consequently every file stored by a full scan, in any game of any developer,
has an `Old`-free relativePath. -/
theorem claim_C7_ignore_folder_exclusion :
    (∀ (children : String → List Node) (ign : List String) (fuel : Nat)
       (item : Node) (rest : List Node) (p : String),
       item.isFolder = true → ign.contains item.name = true →
       rlfwpItems children ign (fuel + 1) (item :: rest) p =
         rlfwpItems children ign fuel rest p) ∧
    (∀ (children : String → List Node) (fuel : Nat) (items : List Node)
       (r : FileRec),
       r ∈ rlfwpItems children ["Old"] fuel items "" →
       r.name ≠ "Old" ∧ r.type = pySuffix r.name ∧
       trackedExts.contains r.type = true ∧
       ∃ segs : List String, (∀ s ∈ segs, s ≠ "Old") ∧
         r.path = joinSegs segs r.name) ∧
    (∀ (info : String → Option FolderInfo) (games : List String)
       (start : String) (parts : List String) (gid : String),
       find_game_and_path info games start = some (parts, gid) →
       "Old" ∉ parts) ∧
    (∀ (info : String → Option FolderInfo) (games : List String)
       (start : String),
       oldOnWalk info games 20 start = true →
       find_game_and_path info games start = none) ∧
    (∀ (env : DriveEnv) (fuel : Nat) (root dn gn : String) (d : Developer)
       (g : Game) (r : FileRec),
       dget (fullScanDevs env fuel root) dn = some d →
       dget d.games gn = some g → r ∈ g.files →
       r.name ≠ "Old" ∧
       ∃ segs : List String, (∀ s ∈ segs, s ≠ "Old") ∧
         r.path = joinSegs segs r.name) := by
  refine ⟨?_, ?_, ?_, ?_, ?_⟩
  · intro children ign fuel item rest p hf hi
    rw [rlfwpItems, if_pos hf, if_pos hi]
    rfl
  · intro children fuel items r hr
    exact rlfwpItems_root_old_free children fuel items r hr
  · intro info games start parts gid h hin
    rcases fgpGo_resolved_no_old info games 20 start [] parts gid h "Old" hin with
      hacc | hne
    · exact absurd hacc (by simp)
    · exact hne rfl
  · intro info games start h
    exact fgpGo_none_of_oldOnWalk info games 20 start [] h
  · intro env fuel root dn gn d g r hd hg hr
    unfold fullScanDevs at hd
    rcases dget_foldl_dset_mem (fun n => n.name) (scanDevOf env fuel)
        ((env.children root).filter (·.isFolder)) [] dn d hd with h0 | ⟨df, _, _, hdfd⟩
    · exact absurd h0 (by simp [dget])
    · rw [← hdfd] at hg
      unfold scanDevOf scanGamesOf at hg
      dsimp only at hg
      rcases dget_foldl_dset_mem (fun n => n.name) (scanGameOf env fuel)
          ((env.children df.id).filter (·.isFolder)) [] gn g hg with
        g0 | ⟨gf, _, _, hgfd⟩
      · exact absurd g0 (by simp [dget])
      · rw [← hgfd] at hr
        unfold scanGameOf recursive_list_files_with_path at hr
        dsimp only at hr
        obtain ⟨hname, _, _, segs, hsegs, hpath⟩ :=
          rlfwpItems_root_old_free env.children fuel (env.children gf.id) r hr
        exact ⟨hname, segs, hsegs, hpath⟩

def c7children : String → List Node
  | "g1" => [{ id := "o1", name := "Old", isFolder := true, size := none },
             { id := "s1", name := "sub", isFolder := true, size := none }]
  | "s1" => [{ id := "f1", name := "a.zip", isFolder := false, size := some "2048" }]
  | "o1" => [{ id := "f2", name := "b.zip", isFolder := false, size := some "2048" }]
  | _ => []

def c7info : String → Option FolderInfo
  | "o1" => some { name := "Old", parents := ["g1"] }
  | "s1" => some { name := "sub", parents := ["g1"] }
  | _ => none

def c7rec : FileRec :=
  { name := "a.zip", id := "f1", size := "2.0 KB", type := ".zip", path := "sub/a.zip" }

def c7oldNode : Node := { id := "o1", name := "Old", isFolder := true, size := none }

def c7scanEnv : DriveEnv :=
  { children := fun id =>
      if id = ROOT_FOLDER_ID then
        [{ id := "d1", name := "D", isFolder := true, size := none }]
      else if id = "d1" then
        [{ id := "g1", name := "G", isFolder := true, size := none }]
      else c7children id
    info := c7info
    getChanges := Except.error ()
    startPageToken := Except.error ()
    now := "" }

theorem claim_C7_witness :
    rlfwpItems c7children ["Old"] 3 [c7oldNode] "" =
      rlfwpItems c7children ["Old"] 2 [] "" ∧
    c7rec ∈ rlfwpItems c7children ["Old"] 5 (c7children "g1") "" ∧
    c7rec.name ≠ "Old" ∧
    find_game_and_path c7info ["g1"] "s1" = some (["sub"], "g1") ∧
    "Old" ∉ ["sub"] ∧
    oldOnWalk c7info ["g1"] 20 "o1" = true ∧
    find_game_and_path c7info ["g1"] "o1" = none ∧
    c7rec ∈ (c7rec ::
      ([] : List FileRec)) ∧
    c7rec.path = joinSegs ["sub"] c7rec.name := by
  refine ⟨?_, by decide, ?_, by decide, ?_, by decide, ?_, by decide, ?_⟩
  · exact claim_C7_ignore_folder_exclusion.1 c7children ["Old"] 2 c7oldNode [] ""
      rfl (by decide)
  · exact (claim_C7_ignore_folder_exclusion.2.1 c7children 5 (c7children "g1") c7rec
      (by decide)).1
  · exact claim_C7_ignore_folder_exclusion.2.2.1 c7info ["g1"] "s1" ["sub"] "g1"
      (by decide)
  · exact claim_C7_ignore_folder_exclusion.2.2.2.1 c7info ["g1"] "o1" (by decide)
  · obtain ⟨-, segs, hsegs, hpath⟩ :=
      claim_C7_ignore_folder_exclusion.2.2.2.2 c7scanEnv 5 ROOT_FOLDER_ID "D" "G"
        { id := "d1", games := [("G", { id := "g1", files := [c7rec], extras := [] })] }
        { id := "g1", files := [c7rec], extras := [] } c7rec
        (by decide) (by decide) (by decide)
    decide

/-! ## C8: survival of operator extras across a full rescan -/

/-- All games of a developers dict, in iteration order. -/
def allGames (devs : List (String × Developer)) : List Game :=
  devs.flatMap (fun dv => dv.2.games.map (·.2))

/-- The last game in iteration order whose id is `gid` (later entries win, as
in the dict built by `game_id_to_extra`). -/
def lastMatch (gid : String) : List Game → Option Game
  | [] => none
  | g :: rest =>
    match lastMatch gid rest with
    | some r => some r
    | none => if g.id = gid then some g else none

theorem lastMatch_append (gid : String) :
    ∀ (a b : List Game),
      lastMatch gid (a ++ b) =
        match lastMatch gid b with
        | some r => some r
        | none => lastMatch gid a := by
  intro a b
  induction a with
  | nil =>
    cases h : lastMatch gid b with
    | none => simp [lastMatch, h]
    | some r => simp [h]
  | cons g rest ih =>
    show lastMatch gid (g :: (rest ++ b)) = _
    rw [lastMatch, ih]
    cases h : lastMatch gid b with
    | none =>
      dsimp only
      rw [lastMatch]
    | some r => dsimp only

theorem lastMatch_none_of_filter_nil (gid : String) :
    ∀ gs : List Game, gs.filter (fun q => q.id == gid) = [] →
      lastMatch gid gs = none := by
  intro gs
  induction gs with
  | nil => intro _; rfl
  | cons g rest ih =>
    intro h
    rw [List.filter_cons] at h
    by_cases hp : (g.id == gid) = true
    · rw [if_pos hp] at h
      exact absurd h (by simp)
    · rw [if_neg hp] at h
      rw [lastMatch, ih h]
      dsimp only
      rw [if_neg (by simpa using hp)]

theorem lastMatch_of_filter_singleton (gid : String) (p0 : Game) :
    ∀ gs : List Game, gs.filter (fun q => q.id == gid) = [p0] →
      lastMatch gid gs = some p0 := by
  intro gs
  induction gs with
  | nil => intro h; exact absurd h (by simp)
  | cons g rest ih =>
    intro h
    rw [List.filter_cons] at h
    by_cases hp : (g.id == gid) = true
    · rw [if_pos hp] at h
      injection h with h₁ h₂
      rw [lastMatch, lastMatch_none_of_filter_nil gid rest h₂]
      dsimp only
      rw [if_pos (by simpa using hp), h₁]
    · rw [if_neg hp] at h
      rw [lastMatch, ih h]

/-- The inner fold of `game_id_to_extra` over one developer's games. -/
theorem dget_games_fold (gid : String) :
    ∀ (gs : List (String × Game)) (m : List (String × List (String × String))),
      dget (gs.foldl
        (fun m₂ gv => if gv.2.id ≠ "" then dset m₂ gv.2.id gv.2.extras else m₂) m) gid =
      if gid = "" then dget m gid
      else
        match lastMatch gid (gs.map (·.2)) with
        | some g => some g.extras
        | none => dget m gid := by
  intro gs
  induction gs with
  | nil =>
    intro m
    by_cases hg : gid = ""
    · rw [List.foldl_nil, if_pos hg]
    · rw [List.foldl_nil, if_neg hg]
      rfl
  | cons gv rest ih =>
    intro m
    rw [List.foldl_cons, ih]
    by_cases hg : gid = ""
    · rw [if_pos hg, if_pos hg]
      by_cases hid : gv.2.id ≠ ""
      · rw [if_pos hid, dget_dset_ne gv.2.id gid gv.2.extras (hg ▸ hid)]
      · rw [if_neg hid]
    · rw [if_neg hg, if_neg hg]
      rw [List.map_cons, lastMatch]
      cases hlm : lastMatch gid (rest.map (·.2)) with
      | some r => dsimp only
      | none =>
        dsimp only
        by_cases hid : gv.2.id = gid
        · rw [if_pos hid]
          have hne : gv.2.id ≠ "" := hid ▸ hg
          rw [if_pos hne, hid, dget_dset_self gid gv.2.extras m]
        · rw [if_neg hid]
          by_cases hne : gv.2.id ≠ ""
          · rw [if_pos hne, dget_dset_ne gv.2.id gid gv.2.extras hid]
          · rw [if_neg hne]

/-- Where `game_id_to_extra` sends a nonempty game id: to the extras of the
last game bearing that id, and nowhere for the empty id. -/
theorem dget_game_id_to_extra_aux (gid : String) :
    ∀ (devs : List (String × Developer)) (m : List (String × List (String × String))),
      dget (devs.foldl
        (fun m dv => dv.2.games.foldl
          (fun m₂ gv => if gv.2.id ≠ "" then dset m₂ gv.2.id gv.2.extras else m₂) m) m)
        gid =
      if gid = "" then dget m gid
      else
        match lastMatch gid (allGames devs) with
        | some g => some g.extras
        | none => dget m gid := by
  intro devs
  induction devs with
  | nil =>
    intro m
    by_cases hg : gid = ""
    · rw [List.foldl_nil, if_pos hg]
    · rw [List.foldl_nil, if_neg hg]
      rfl
  | cons dv rest ih =>
    intro m
    rw [List.foldl_cons, ih]
    have hall : allGames (dv :: rest) = dv.2.games.map (·.2) ++ allGames rest := by
      simp [allGames]
    by_cases hg : gid = ""
    · rw [if_pos hg, if_pos hg, dget_games_fold, if_pos hg]
    · rw [if_neg hg, if_neg hg, hall,
          lastMatch_append gid (dv.2.games.map (·.2)) (allGames rest)]
      cases hlm : lastMatch gid (allGames rest) with
      | some r => dsimp only
      | none =>
        dsimp only
        rw [dget_games_fold, if_neg hg]

theorem dget_game_id_to_extra (devs : List (String × Developer)) (gid : String) :
    dget (game_id_to_extra devs) gid =
      if gid = "" then none
      else
        match lastMatch gid (allGames devs) with
        | some g => some g.extras
        | none => none := by
  unfold game_id_to_extra
  rw [dget_game_id_to_extra_aux gid devs []]
  by_cases hg : gid = ""
  · rw [if_pos hg, if_pos hg]
    rfl
  · rw [if_neg hg, if_neg hg]
    cases lastMatch gid (allGames devs) with
    | some r => rfl
    | none => rfl

theorem dictUpdate_all_fresh {α : Type} :
    ∀ (e acc : List (String × α)),
      (∀ k ∈ e.map Prod.fst, dmem acc k = false) →
      (e.map Prod.fst).Nodup →
      dictUpdate acc e = acc ++ e := by
  intro e
  induction e with
  | nil => intro acc _ _; simp [dictUpdate]
  | cons kv e₂ ih =>
    intro acc hfresh hnd
    obtain ⟨k, v⟩ := kv
    rw [List.map_cons, List.nodup_cons] at hnd
    have hk : dmem acc k = false := hfresh k (by simp)
    show dictUpdate (dset acc k v) e₂ = _
    rw [dset_of_dmem_false k v acc hk]
    rw [ih (acc ++ [(k, v)]) ?_ hnd.2]
    · rw [List.append_assoc]
      rfl
    · intro k₂ hk₂
      have hne : k ≠ k₂ := fun he => hnd.1 (he ▸ hk₂)
      have hacc : dget acc k₂ = none :=
        dget_of_dmem_false acc k₂ (hfresh k₂ (List.mem_cons_of_mem _ hk₂))
      unfold dmem
      rw [dget_append_right k₂ acc [(k, v)] hacc, dget, if_neg hne]
      rfl

theorem dictUpdate_nil_of_nodup {α : Type} (e : List (String × α))
    (hnd : (e.map Prod.fst).Nodup) : dictUpdate [] e = e := by
  rw [dictUpdate_all_fresh e [] (fun k _ => rfl) hnd]
  rfl

/-- Every game the full scan stores originates from `scanGameOf`; in
particular its extras list is empty. -/
theorem fullScan_game_origin (env : DriveEnv) (fuel : Nat) (root dn gn : String)
    (d : Developer) (g : Game)
    (hd : dget (fullScanDevs env fuel root) dn = some d)
    (hg : dget d.games gn = some g) :
    ∃ gf : Node, g = scanGameOf env fuel gf := by
  unfold fullScanDevs at hd
  rcases dget_foldl_dset_mem (fun n => n.name) (scanDevOf env fuel)
      ((env.children root).filter (·.isFolder)) [] dn d hd with h0 | ⟨df, _, _, hdfd⟩
  · exact absurd h0 (by simp [dget])
  · rw [← hdfd] at hg
    unfold scanDevOf scanGamesOf at hg
    dsimp only at hg
    rcases dget_foldl_dset_mem (fun n => n.name) (scanGameOf env fuel)
        ((env.children df.id).filter (·.isFolder)) [] gn g hg with
      g0 | ⟨gf, _, _, hgfd⟩
    · exact absurd g0 (by simp [dget])
    · exact ⟨gf, hgfd.symm⟩

/-- C8.  After a full rescan, a fresh game whose remoteId matches exactly one
game of the prior snapshot receives every non-structural field of that prior
game unchanged, on top of its unchanged `id` and `files`; a fresh game whose
remoteId matches nothing in the prior snapshot is left exactly as scanned
(its extras are empty — prior extras under ids absent from the fresh scan are
silently dropped). -/
theorem claim_C8_extras_survive_full_rescan
    (env : DriveEnv) (fuel : Nat) (root : String)
    (prior : List (String × Developer)) (dn gn : String) (d : Developer) (g : Game)
    (hd : dget (fullScanDevs env fuel root) dn = some d)
    (hg : dget d.games gn = some g) :
    (∀ p0 : Game,
       (allGames prior).filter (fun q => q.id == g.id) = [p0] →
       g.id ≠ "" →
       (p0.extras.map Prod.fst).Nodup →
       ∃ d₂ g₂,
         dget (applyExtras (fullScanDevs env fuel root) (game_id_to_extra prior)) dn =
           some d₂ ∧
         dget d₂.games gn = some g₂ ∧
         g₂.id = g.id ∧ g₂.files = g.files ∧ g₂.extras = p0.extras) ∧
    ((allGames prior).filter (fun q => q.id == g.id) = [] →
       ∃ d₂ g₂,
         dget (applyExtras (fullScanDevs env fuel root) (game_id_to_extra prior)) dn =
           some d₂ ∧
         dget d₂.games gn = some g₂ ∧ g₂ = g) := by
  obtain ⟨gf, hgf⟩ := fullScan_game_origin env fuel root dn gn d g hd hg
  have hextras : g.extras = [] := by rw [hgf]; rfl
  constructor
  · intro p0 hfilter hgid hnd
    have hm : dget (game_id_to_extra prior) g.id = some p0.extras := by
      rw [dget_game_id_to_extra prior g.id, if_neg hgid,
          lastMatch_of_filter_singleton g.id p0 (allGames prior) hfilter]
    have hupd : dictUpdate g.extras p0.extras = p0.extras := by
      rw [hextras]
      exact dictUpdate_nil_of_nodup p0.extras hnd
    refine ⟨applyExtrasDev (game_id_to_extra prior) d,
      { g with extras := p0.extras }, ?_, ?_, rfl, rfl, rfl⟩
    · unfold applyExtras
      rw [dget_map_val (applyExtrasDev (game_id_to_extra prior)) dn
            (fullScanDevs env fuel root), hd]
      rfl
    · unfold applyExtrasDev
      rw [dget_map_val (applyExtrasGame (game_id_to_extra prior)) gn d.games, hg]
      simp only [Option.map_some']
      unfold applyExtrasGame
      rw [hm]
      dsimp only
      rw [hupd]
  · intro hfilter
    have hm : dget (game_id_to_extra prior) g.id = none := by
      rw [dget_game_id_to_extra prior g.id]
      by_cases hgid : g.id = ""
      · rw [if_pos hgid]
      · rw [if_neg hgid,
            lastMatch_none_of_filter_nil g.id (allGames prior) hfilter]
    refine ⟨applyExtrasDev (game_id_to_extra prior) d, g, ?_, ?_, rfl⟩
    · unfold applyExtras
      rw [dget_map_val (applyExtrasDev (game_id_to_extra prior)) dn
            (fullScanDevs env fuel root), hd]
      rfl
    · unfold applyExtrasDev
      rw [dget_map_val (applyExtrasGame (game_id_to_extra prior)) gn d.games, hg]
      simp only [Option.map_some']
      unfold applyExtrasGame
      rw [hm]

def gameAt (devs : List (String × Developer)) (dn gn : String) : Option Game :=
  (dget devs dn).bind (fun d => dget d.games gn)

def c8prior : List (String × Developer) :=
  [("D", { id := "d1",
           games := [("G", { id := "g1", files := [],
                             extras := [("publisher", "X")] })] })]

def c8env : DriveEnv :=
  { children := fun id =>
      if id = ROOT_FOLDER_ID then
        [{ id := "d1", name := "D", isFolder := true, size := none }]
      else if id = "d1" then
        [{ id := "g1", name := "G", isFolder := true, size := none },
         { id := "g2", name := "H", isFolder := true, size := none }]
      else []
    info := fun _ => none
    getChanges := Except.error ()
    startPageToken := Except.error ()
    now := "" }

def c8freshG : Game := { id := "g1", files := [], extras := [] }
def c8freshH : Game := { id := "g2", files := [], extras := [] }
def c8freshD : Developer := { id := "d1", games := [("G", c8freshG), ("H", c8freshH)] }
def c8priorG : Game := { id := "g1", files := [], extras := [("publisher", "X")] }

theorem claim_C8_witness :
    (gameAt (applyExtras (fullScanDevs c8env 5 ROOT_FOLDER_ID)
        (game_id_to_extra c8prior)) "D" "G").map
      (fun g₂ => (g₂.id, g₂.files, g₂.extras)) =
      some ("g1", [], [("publisher", "X")]) ∧
    (gameAt (applyExtras (fullScanDevs c8env 5 ROOT_FOLDER_ID)
        (game_id_to_extra c8prior)) "D" "H").map
      (fun g₂ => (g₂.id, g₂.files, g₂.extras)) =
      some ("g2", [], []) := by
  constructor
  · obtain ⟨h1, -⟩ := claim_C8_extras_survive_full_rescan c8env 5 ROOT_FOLDER_ID
        c8prior "D" "G" c8freshD c8freshG (by decide) (by decide)
    obtain ⟨d₂, g₂, hd₂, hg₂, hid, hfiles, hextras⟩ :=
      h1 c8priorG (by decide) (by decide) (by decide)
    unfold gameAt
    rw [hd₂]
    show (dget d₂.games "G").map _ = _
    rw [hg₂]
    show some (g₂.id, g₂.files, g₂.extras) = _
    rw [hid, hfiles, hextras]
    rfl
  · obtain ⟨-, h2⟩ := claim_C8_extras_survive_full_rescan c8env 5 ROOT_FOLDER_ID
        c8prior "D" "H" c8freshD c8freshH (by decide) (by decide)
    obtain ⟨d₂, g₂, hd₂, hg₂, hgg⟩ := h2 (by decide)
    unfold gameAt
    rw [hd₂]
    show (dget d₂.games "H").map _ = _
    rw [hg₂]
    show some (g₂.id, g₂.files, g₂.extras) = _
    rw [hgg]
    rfl
